import Mathlib

/-!
NimbusStore metadata engine — verification of spec claims.

Shallow embedding of the NimbusStore (nebulastore) metadata engine:

* the RocksDB record codec for `FileLayout` (`rocksdb_store.cpp`,
  `EncodeLayoutValue` / `DecodeLayoutValue`) and the layout lookup
  (`RocksDBStore::LookupLayout`);
* the slice tree (`slice_tree.h` + the `SliceTree` implementation:
  `Cut`, `InsertNode`, `Insert`, `InorderCollect`, `Build`), modelled with an
  explicit heap of nodes because the C++ mutates `shared_ptr` nodes in place
  and the full-coverage branch of `Cut` can alias nodes into a cycle; every
  recursion over pointers therefore carries explicit fuel, with `none`
  denoting a computation that does not terminate in the given fuel;
* the metadata service (`metadata_service_impl.cpp` for
  `MetadataServiceImpl` and `unnamed/part_007` for `MetaPartition`):
  `ParsePath`, `SplitParentChild`, `LookupPath`, `Create`, `GetAttr`,
  `SetAttr`, `UpdateSize`;
* the S3 metadata sub-store (`s3_metadata.h`: `ObjectMeta::Encode/Decode`,
  `PutObject`, `GetObject`, `ListObjects`, `DeleteBucket`) and the
  `HandleDeleteBucket` handler (`s3_handler.h`), over a key-value store
  modelled as an association list of byte strings kept in ascending key
  order (RocksDB iterates keys in ascending byte order).

Machine integers are modelled as `Nat`; the C++ code stores `uint64_t`/
`uint32_t` fields whose byte-level serialization is made explicit with
`% 256` / shift arithmetic exactly where the source manipulates bytes.
C++ `char` is signed on the x86-64 Linux target this repository builds for
(`Makefile` + RocksDB), so `static_cast<uint64_t>(value[pos])` sign-extends
bytes `≥ 0x80`; `sx64` below models that cast.
-/

namespace NimbusStore

/-! ## Core metadata record types (`bounded_queue.h` types section) -/

/-- The `FileType` enum: `kRegular = 1`, `kDirectory = 2`, `kSymlink = 3`. -/
inductive FileType where
  | kRegular
  | kDirectory
  | kSymlink
deriving DecidableEq, Repr

/-- The `FileMode`: a `uint32_t` mode word.  `IsDirectory()` is
`(mode & 0170000) == 0040000`. -/
def FileMode.isDirectory (mode : Nat) : Bool :=
  mode.land 0o170000 == 0o040000

/-- The `InodeAttr`: `{inode_id, mode, uid, gid, size, mtime, ctime, nlink}`.
`mode` is the `FileMode.mode` word. -/
structure InodeAttr where
  inode_id : Nat
  mode     : Nat
  uid      : Nat
  gid      : Nat
  size     : Nat
  mtime    : Nat
  ctime    : Nat
  nlink    : Nat
deriving DecidableEq, Repr

/-- The `Dentry`: `{name, inode_id, type}`. -/
structure Dentry where
  name     : String
  inode_id : Nat
  type     : FileType
deriving DecidableEq, Repr

/-- The `SliceInfo`: `{slice_id, offset, size, storage_key}`. -/
structure SliceInfo where
  slice_id    : Nat
  offset      : Nat
  size        : Nat
  storage_key : String
deriving DecidableEq, Repr

/-- The `FileLayout`: `{inode_id, chunk_size, slices}`. -/
structure FileLayout where
  inode_id   : Nat
  chunk_size : Nat
  slices     : List SliceInfo
deriving DecidableEq, Repr

/-- The `ErrorCode` enum from the common types header. -/
inductive ErrorCode where
  | kOK
  | kNotFound
  | kPermissionDenied
  | kExist
  | kIsDirectory
  | kNotDirectory
  | kInvalidArgument
  | kIOError
  | kNoSpace
deriving DecidableEq, Repr

/-- The `Status`: an error code plus a human-readable message. -/
structure Status where
  code : ErrorCode
  msg  : String
deriving DecidableEq, Repr

namespace Status

def ok : Status := ⟨ErrorCode.kOK, ""⟩
def notFound (m : String) : Status := ⟨ErrorCode.kNotFound, m⟩
def exist (m : String) : Status := ⟨ErrorCode.kExist, m⟩
def invalidArgument (m : String) : Status := ⟨ErrorCode.kInvalidArgument, m⟩
def notDirectory (m : String) : Status := ⟨ErrorCode.kNotDirectory, m⟩
def ioError (m : String) : Status := ⟨ErrorCode.kIOError, m⟩

/-- The `Status::OK()` predicate: `code_ == ErrorCode::kOK`. -/
def OK (s : Status) : Bool := s.code == ErrorCode.kOK

end Status

/-! ## Byte-level helpers for the RocksDB layout codec

The codec works on `std::string` buffers; we model a buffer as a
`List Nat` of bytes (each `< 256`, as produced by `push_back(x & 0xFF)`). -/

/-- One byte of the little-endian serialization: `(v >> (i*8)) & 0xFF`. -/
def byteAt (v i : Nat) : Nat := (v >>> (8 * i)) % 256

/-- The `for i in 0..8: push_back((v >> (i*8)) & 0xFF)` — u64 little-endian. -/
def putU64LE (v : Nat) : List Nat :=
  [byteAt v 0, byteAt v 1, byteAt v 2, byteAt v 3,
   byteAt v 4, byteAt v 5, byteAt v 6, byteAt v 7]

/-- The `for i in 0..4: push_back((v >> (i*8)) & 0xFF)` — u32 little-endian. -/
def putU32LE (v : Nat) : List Nat :=
  [byteAt v 0, byteAt v 1, byteAt v 2, byteAt v 3]

/-- The `static_cast<uint64_t>(c)` where `c` is a **signed** `char` holding byte
`b`: bytes `≥ 0x80` are sign-extended, producing `2^64 - 256 + b`. -/
def sx64 (b : Nat) : Nat :=
  if b < 128 then b else 2 ^ 64 - 256 + b

/-- Read byte `pos + i` of the buffer (`value[pos]` on a `std::string`;
out-of-range reads never occur on the paths guarded by the size checks,
and are modelled as byte 0). -/
def bufByte (v : List Nat) (pos : Nat) : Nat := (v.get? pos).getD 0

/-- The `x |= static_cast<uint64_t>(value[pos]) << (i * 8)` accumulated over
`i = 0..7`: the buggy sign-extending u64 read used by `DecodeLayoutValue`
for `chunk_size`, `slice_id`, `offset` and `size`.  Each shifted term is a
`uint64_t`, i.e. taken `% 2^64`. -/
def getU64sx (v : List Nat) (pos : Nat) : Nat :=
  (List.range 8).foldl
    (fun acc i => acc.lor ((sx64 (bufByte v (pos + i)) <<< (8 * i)) % 2 ^ 64)) 0

/-- The `x |= static_cast<uint8_t>(value[pos]) << (i * 8)` over `i = 0..3`:
the u32 read used for `slice_count` and `key_len` (no sign extension). -/
def getU32u8 (v : List Nat) (pos : Nat) : Nat :=
  (List.range 4).foldl
    (fun acc i => acc.lor (bufByte v (pos + i) <<< (8 * i))) 0

/-- ASCII bytes of a storage key (`value.append(slice.storage_key)`). -/
def strBytes (s : String) : List Nat := s.toList.map Char.toNat

/-- Rebuild a string from bytes (`value.substr(pos, key_len)`). -/
def bytesStr (bs : List Nat) : String := String.mk (bs.map Char.ofNat)

/-! ## `RocksDBStore::EncodeLayoutValue` (rocksdb_store.cpp)

Wire format: `chunk_size(8) + slice_count(4) +
[slice_id(8) + offset(8) + size(8) + key_len(4) + key_bytes]*`.
Note that `layout.inode_id` is **not** written. -/

def encodeSlice (s : SliceInfo) : List Nat :=
  putU64LE s.slice_id ++ putU64LE s.offset ++ putU64LE s.size ++
  putU32LE (strBytes s.storage_key).length ++ strBytes s.storage_key

def EncodeLayoutValue (layout : FileLayout) : List Nat :=
  putU64LE layout.chunk_size ++ putU32LE layout.slices.length ++
  (layout.slices.map encodeSlice).flatten

/-! ## `RocksDBStore::DecodeLayoutValue` (rocksdb_store.cpp)

`FileLayout layout{}` value-initializes `inode_id = 0` and `chunk_size = 0`;
the slice loop runs `for (s = 0; s < count && pos + 28 <= value.size(); ++s)`
and breaks when the key bytes would run past the buffer. -/

def decodeSlices (v : List Nat) : Nat → Nat → List SliceInfo
  | 0, _ => []
  | count + 1, pos =>
    if pos + 28 ≤ v.length then
      let slice_id := getU64sx v pos
      let offset := getU64sx v (pos + 8)
      let size := getU64sx v (pos + 16)
      let key_len := getU32u8 v (pos + 24)
      if pos + 28 + key_len ≤ v.length then
        ⟨slice_id, offset, size, bytesStr ((v.drop (pos + 28)).take key_len)⟩ ::
          decodeSlices v count (pos + 28 + key_len)
      else []
    else []

def DecodeLayoutValue (v : List Nat) : FileLayout :=
  if v.length < 12 then ⟨0, 0, []⟩
  else
    let chunk_size := getU64sx v 0
    let count := getU32u8 v 8
    ⟨0, chunk_size, decodeSlices v count 12⟩

/-! ## `RocksDBStore::LookupLayout` (rocksdb_store.cpp)

The RocksDB instance is modelled as an association list from encoded keys to
encoded values (both byte lists).  A `Get` miss is the `IsNotFound` branch;
I/O errors of the healthy database are outside the model. -/

/-- The `EncodeLayoutKey`: `'L' + inode_id (8 bytes little-endian)`. -/
def EncodeLayoutKey (inode : Nat) : List Nat := 76 :: putU64LE inode

/-- The `rocksdb::DB::Get` on the modelled store: first match wins. -/
def kvGetB (db : List (List Nat × List Nat)) (key : List Nat) : Option (List Nat) :=
  match db with
  | [] => none
  | (k, v) :: rest => if k = key then some v else kvGetB rest key

def LookupLayout (db : List (List Nat × List Nat)) (inode : Nat) :
    Status × FileLayout :=
  match kvGetB db (EncodeLayoutKey inode) with
  | none => (Status.ok, ⟨inode, 4 * 1024 * 1024, []⟩)
  | some v => (Status.ok, DecodeLayoutValue v)

/-! ## Slice tree (`slice_tree.h` + `SliceTree::{Cut, InsertNode, Insert,
InorderCollect, Build}`)

The C++ tree is a raw BST of `std::shared_ptr<SliceNode>` nodes mutated in
place.  The full-coverage branch of `Cut` rewires `min_node->left/right`
without detaching `min_node` from the right subtree, which can alias nodes
into a **cycle**; a pure functional tree cannot express that, so nodes live
in an explicit heap (`List SliceNode`, pointer = index, allocation = append)
and every recursion over pointers carries fuel.  A result of `none` means
the C++ recursion does not terminate within the given fuel. -/

/-- The `SliceNode`: `{id, size, off, len, pos, left, right}`;
`End()` is `pos + len`.  `left`/`right` are heap indices. -/
structure SliceNode where
  pos   : Nat
  id    : Nat
  size  : Nat
  off   : Nat
  len   : Nat
  left  : Option Nat
  right : Option Nat
deriving DecidableEq, Repr

/-- The heap of allocated nodes: pointer `p` denotes `heap[p]`. -/
abbrev Heap := List SliceNode

/-- Write through a pointer (a field assignment on `*p`). -/
def heapSet (h : Heap) (p : Nat) (n : SliceNode) : Heap := h.set p n

/-- The `while (min_node->left) min_node = min_node->left;` — the minimum of the
subtree rooted at `p`. -/
def findMin : Nat → Heap → Nat → Option Nat
  | 0, _, _ => none
  | fuel + 1, h, p => do
    let node ← h.get? p
    match node.left with
    | none => some p
    | some l => findMin fuel h l

/-- The `SliceTree::InsertNode` — plain BST insert, returning the (possibly new)
subtree root.  `node->left/right = InsertNode(...)` re-reads the node after
the recursive call, as the C++ assignment does. -/
def insertNode : Nat → Heap → Option Nat → Nat → Option (Heap × Nat)
  | 0, _, _, _ => none
  | _ + 1, h, none, newp => some (h, newp)
  | fuel + 1, h, some p, newp => do
    let node ← h.get? p
    let newNode ← h.get? newp
    if newNode.pos < node.pos then
      let (h1, l) ← insertNode fuel h node.left newp
      let node1 ← h1.get? p
      some (heapSet h1 p { node1 with left := some l }, p)
    else
      let (h1, r) ← insertNode fuel h node.right newp
      let node1 ← h1.get? p
      some (heapSet h1 p { node1 with right := some r }, p)

set_option maxHeartbeats 1000000 in
/-- The `SliceTree::Cut` — trims / deletes / splits every node overlapping the
new write `[pos, pos+len)`.  Field reads and writes follow the C++ order:
`node_end` is computed once on entry; the children are cut (and re-assigned)
before the overlap checks; the full-coverage branch replaces the node by the
minimum of its right subtree **without detaching it** (the source bug). -/
def cut : Nat → Heap → Option Nat → Nat → Nat → Option (Heap × Option Nat)
  | 0, _, _, _, _ => none
  | _ + 1, h, none, _, _ => some (h, none)
  | fuel + 1, h, some p, pos, len => do
    let node0 ← h.get? p
    let e := pos + len
    let nodeEnd := node0.pos + node0.len
    -- node->left = Cut(node->left, pos, len);
    let (h1, l') ← cut fuel h node0.left pos len
    let node1 ← h1.get? p
    let h2 := heapSet h1 p { node1 with left := l' }
    -- node->right = Cut(node->right, pos, len);
    let node2 ← h2.get? p
    let (h3, r') ← cut fuel h2 node2.right pos len
    let node3 ← h3.get? p
    let h4 := heapSet h3 p { node3 with right := r' }
    let node ← h4.get? p
    if nodeEnd ≤ pos ∨ node.pos ≥ e then
      -- no overlap
      some (h4, some p)
    else if node.pos ≥ pos ∧ nodeEnd ≤ e then
      -- full coverage: delete the node
      match node.left with
      | none => some (h4, node.right)
      | some _ =>
        match node.right with
        | none => some (h4, node.left)
        | some rp => do
          let minp ← findMin (fuel + 1) h4 rp
          -- min_node->right = node->right;  (no detach: may form a cycle)
          let minNode ← h4.get? minp
          let h5 := heapSet h4 minp { minNode with right := node.right }
          -- min_node->left = node->left;
          let node5 ← h5.get? p
          let minNode5 ← h5.get? minp
          let h6 := heapSet h5 minp { minNode5 with left := node5.left }
          some (h6, some minp)
    else if node.pos < pos ∧ nodeEnd > e then
      -- middle split: new right part, trim this node, insert the part
      let rightPart : SliceNode :=
        ⟨e, node.id, node.size, node.off + (e - node.pos), nodeEnd - e,
         none, none⟩
      let newp := h4.length
      let h5 := h4 ++ [rightPart]
      let node5 ← h5.get? p
      let h6 := heapSet h5 p { node5 with len := pos - node5.pos }
      let node6 ← h6.get? p
      let (h7, r2) ← insertNode (fuel + 1) h6 node6.right newp
      let node7 ← h7.get? p
      some (heapSet h7 p { node7 with right := some r2 }, some p)
    else if node.pos < pos then
      -- clipped on the right
      some (heapSet h4 p { node with len := pos - node.pos }, some p)
    else
      -- clipped on the left
      let cutLen := e - node.pos
      some (heapSet h4 p
        { node with off := node.off + cutLen, len := node.len - cutLen,
                    pos := e }, some p)

/-- The `SliceTree::Insert`: `root_ = Cut(root_, pos, len)`, allocate the new
node, `root_ = InsertNode(root_, new_node)`. -/
def sliceInsert (fuel : Nat) (t : Heap × Option Nat)
    (pos id size off len : Nat) : Option (Heap × Option Nat) := do
  let (h1, r1) ← cut fuel t.1 t.2 pos len
  let newp := h1.length
  let h2 := h1 ++ [⟨pos, id, size, off, len, none, none⟩]
  let (h3, r2) ← insertNode fuel h2 r1 newp
  some (h3, some r2)

/-- The `SliceTree::InorderCollect` — in-order traversal collecting the nodes. -/
def inorderCollect : Nat → Heap → Option Nat → Option (List SliceNode)
  | _, _, none => some []
  | 0, _, some _ => none
  | fuel + 1, h, some p => do
    let node ← h.get? p
    let l ← inorderCollect fuel h node.left
    let r ← inorderCollect fuel h node.right
    some (l ++ [node] ++ r)

/-- The `SliceTree::Build` — in-order traversal emitting `SliceInfo`s with
`storage_key = key_prefix + "/" + std::to_string(node->id)`. -/
def sliceBuild (fuel : Nat) (t : Heap × Option Nat) (keyPfx : String) :
    Option (List SliceInfo) := do
  let nodes ← inorderCollect fuel t.1 t.2
  some (nodes.map fun node =>
    ⟨node.id, node.pos, node.len, keyPfx ++ "/" ++ toString node.id⟩)

/-- The empty `SliceTree` (`root_` null, nothing allocated). -/
def emptyTree : Heap × Option Nat := ([], none)

/-! ## Meta partition (`unnamed/part_007`, `MetaPartition`)

A partition owns an inode range, an in-memory B-tree cache
(`inode_tree_` / `dentry_tree_`) and a RocksDB store.  The RocksDB records
(`'I' || id → EncodeInodeValue(attr)`, `'D' || parent || '/' || name →
EncodeDentryValue(dentry)`) are modelled at record granularity as
association lists; the byte-level layout codec is embedded separately
above, and the claims against this layer concern statuses and record
presence only.  Both cache and store insert with first-match-wins lookup,
so consing an entry models `map[k] = v` / `Put`.  `store_` is always
initialized (the `!store_` guard returns `IO`), and a healthy RocksDB
`Commit` succeeds. -/

/-- First-match association lookup (B-tree `Get*` / RocksDB `Get`). -/
def assocFind {α β : Type} [DecidableEq α] (l : List (α × β)) (k : α) :
    Option β :=
  match l with
  | [] => none
  | (k', v) :: rest => if k' = k then some v else assocFind rest k

structure MetaPartition where
  startInode : Nat
  endInode   : Nat
  inodeTree  : List (Nat × InodeAttr)
  dentryTree : List ((Nat × String) × Dentry)
  kvInodes   : List (Nat × InodeAttr)
  kvDentries : List ((Nat × String) × Dentry)
deriving Repr

/-- The `MetaPartition::Lookup`: cache first, then RocksDB, then populate the
cache. -/
def pLookup (p : MetaPartition) (inode : Nat) :
    Status × Option InodeAttr × MetaPartition :=
  match assocFind p.inodeTree inode with
  | some attr => (Status.ok, some attr, p)
  | none =>
    match assocFind p.kvInodes inode with
    | none => (Status.notFound ("Inode not found: " ++ toString inode), none, p)
    | some attr =>
      (Status.ok, some attr,
       { p with inodeTree := (inode, attr) :: p.inodeTree })

/-- The `MetaPartition::LookupDentry`: cache first, then RocksDB, then populate
the cache. -/
def pLookupDentry (p : MetaPartition) (parent : Nat) (name : String) :
    Status × Option Dentry × MetaPartition :=
  match assocFind p.dentryTree (parent, name) with
  | some d => (Status.ok, some d, p)
  | none =>
    match assocFind p.kvDentries (parent, name) with
    | none => (Status.notFound ("Dentry not found: " ++ name), none, p)
    | some d =>
      (Status.ok, some d,
       { p with dentryTree := ((parent, name), d) :: p.dentryTree })

/-- The `MetaPartition::CreateDentry`: parent must exist and be a directory,
`(parent, name)` must be fresh; then a single-key transaction commits the
dentry and the cache is populated. -/
def pCreateDentry (p : MetaPartition) (parent : Nat) (name : String)
    (inode : Nat) (ftype : FileType) : Status × MetaPartition :=
  let (s1, parentAttr?, p1) := pLookup p parent
  if ¬ s1.OK then (Status.notFound ("Parent directory not found"), p1)
  else
    match parentAttr? with
    | none => (Status.notFound ("Parent directory not found"), p1)
    | some parentAttr =>
      if ¬ FileMode.isDirectory parentAttr.mode then
        (Status.notDirectory ("Parent is not a directory"), p1)
      else
        let (s2, _, p2) := pLookupDentry p1 parent name
        if s2.OK then (Status.exist ("File already exists"), p2)
        else
          let d : Dentry := ⟨name, inode, ftype⟩
          (Status.ok,
           { p2 with kvDentries := ((parent, name), d) :: p2.kvDentries,
                     dentryTree := ((parent, name), d) :: p2.dentryTree })

/-- The `MetaPartition::CreateInode`: range check, `Exist` if the id is already
present, else a single-key transaction commits
`{inode, mode, uid, gid, size: 0, mtime: now, ctime: now, nlink: 1}` and the
cache is populated with the same record.  `now` is the `NowInSeconds()`
wall-clock value, made an explicit argument. -/
def pCreateInode (p : MetaPartition) (inode mode uid gid now : Nat) :
    Status × MetaPartition :=
  if inode < p.startInode ∨ inode ≥ p.endInode then
    (Status.invalidArgument ("Inode ID out of range"), p)
  else
    let (s, _, p1) := pLookup p inode
    if s.OK then (Status.exist ("Inode already exists"), p1)
    else
      let attr : InodeAttr := ⟨inode, mode, uid, gid, 0, now, now, 1⟩
      (Status.ok,
       { p1 with kvInodes := (inode, attr) :: p1.kvInodes,
                 inodeTree := (inode, attr) :: p1.inodeTree })

/-! ## Metadata service (`metadata_service_impl.cpp`, `MetadataServiceImpl`) -/

structure MetaService where
  partitions : List MetaPartition
  nextInode  : Nat
deriving Repr

/-- The `MetadataServiceImpl::LocatePartition`: first partition whose range
contains the id, else the first partition, else null (modelled `none`). -/
def locatePartition (svc : MetaService) (inode : Nat) : Option Nat :=
  match svc.partitions.findIdx? (fun p => p.startInode ≤ inode && inode < p.endInode) with
  | some i => some i
  | none => if svc.partitions.isEmpty then none else some 0

/-- Write back the mutated partition `i`. -/
def setPartition (svc : MetaService) (i : Nat) (p : MetaPartition) :
    MetaService :=
  { svc with partitions := svc.partitions.set i p }

/-- The inner loop of `ParsePath`: split on `'/'`, dropping empty parts.
`part` accumulates the current component. -/
def splitParts : List Char → List Char → List String
  | [], part => if part.isEmpty then [] else [String.mk part]
  | c :: rest, part =>
    if c = '/' then
      if part.isEmpty then splitParts rest [] else String.mk part :: splitParts rest []
    else splitParts rest (part ++ [c])

/-- The `MetadataServiceImpl::ParsePath`: requires a leading `'/'`
(`InvalidArgument` otherwise, modelled `none`), then splits the rest. -/
def ParsePath (path : String) : Option (List String) :=
  match path.toList with
  | [] => none
  | c :: rest => if c = '/' then some (splitParts rest []) else none

/-- Position of the last `'/'` in the string, if any (`rfind`). -/
def rfindSlash (cs : List Char) : Option Nat :=
  match cs with
  | [] => none
  | c :: rest =>
    match rfindSlash rest with
    | some i => some (i + 1)
    | none => if c = '/' then some 0 else none

/-- The `SplitParentChild`: `"/"`/empty ↦ `("/", "")`; last slash at 0 ↦
`("/", rest)`; otherwise split at the last slash.  (With no slash at all,
`rfind` returns `npos` and the C++ `substr` arithmetic yields the whole
string on both sides.) -/
def SplitParentChild (path : String) : String × String :=
  if path = "/" ∨ path = "" then ("/", "")
  else
    match rfindSlash path.toList with
    | none => (path, path)
    | some 0 => ("/", String.mk (path.toList.drop 1))
    | some pos =>
      (String.mk (path.toList.take pos), String.mk (path.toList.drop (pos + 1)))

/-- The walk inside `MetadataServiceImpl::LookupPath`: follow each path
component by `LookupDentry` from the current inode, starting at root. -/
def lookupPathLoop (svc : MetaService) (current : Nat) :
    List String → Status × Option Nat × MetaService
  | [] => (Status.ok, some current, svc)
  | part :: rest =>
    match locatePartition svc current with
    | none => (Status.ioError ("No partition available"), none, svc)
    | some i =>
      match svc.partitions.get? i with
      | none => (Status.ioError ("No partition available"), none, svc)
      | some p =>
        let (s, d?, p') := pLookupDentry p current part
        let svc' := setPartition svc i p'
        if ¬ s.OK then
          (Status.notFound ("Path not found: " ++ part), none, svc')
        else
          match d? with
          | none => (Status.notFound ("Path not found: " ++ part), none, svc')
          | some d => lookupPathLoop svc' d.inode_id rest

/-- The `MetadataServiceImpl::LookupPath`. -/
def LookupPath (svc : MetaService) (path : String) :
    Status × Option Nat × MetaService :=
  match ParsePath path with
  | none => (Status.invalidArgument ("Path must start with /"), none, svc)
  | some parts => lookupPathLoop svc 1 parts

/-- The `MetadataServiceImpl::Create`: split into parent and name, resolve the
parent, reject an existing `(parent, name)`, allocate the next inode id,
`CreateInode` on the id's partition, then `CreateDentry` on the parent's
partition.  The committed inode is **not** rolled back when the dentry step
fails. -/
def Create (svc : MetaService) (path : String) (mode uid gid now : Nat) :
    Status × MetaService :=
  let (parentPath, name) := SplitParentChild path
  if name = "" then (Status.exist ("Root already exists"), svc)
  else
    let (s, parentInode?, svc1) := LookupPath svc parentPath
    if ¬ s.OK then (Status.notFound ("Parent directory not found"), svc1)
    else
      match parentInode? with
      | none => (Status.notFound ("Parent directory not found"), svc1)
      | some parentInode =>
        match locatePartition svc1 parentInode with
        | none => (Status.ioError ("No partition available"), svc1)
        | some pidx =>
          match svc1.partitions.get? pidx with
          | none => (Status.ioError ("No partition available"), svc1)
          | some pp =>
            let (es, _, pp') := pLookupDentry pp parentInode name
            let svc2 := setPartition svc1 pidx pp'
            if es.OK then (Status.exist ("File already exists"), svc2)
            else
              let newInode := svc2.nextInode
              let svc3 := { svc2 with nextInode := svc2.nextInode + 1 }
              match locatePartition svc3 newInode with
              | none => (Status.ioError ("No partition available"), svc3)
              | some tidx =>
                match svc3.partitions.get? tidx with
                | none => (Status.ioError ("No partition available"), svc3)
                | some tp =>
                  let (cs, tp') := pCreateInode tp newInode mode uid gid now
                  let svc4 := setPartition svc3 tidx tp'
                  if ¬ cs.OK then (cs, svc4)
                  else
                    let ftype := if FileMode.isDirectory mode then
                      FileType.kDirectory else FileType.kRegular
                    match svc4.partitions.get? pidx with
                    | none => (Status.ioError ("No partition available"), svc4)
                    | some pp2 =>
                      let (ds, pp2') :=
                        pCreateDentry pp2 parentInode name newInode ftype
                      (ds, setPartition svc4 pidx pp2')

/-- The `MetadataServiceImpl::GetAttr`: `LookupPath` then partition `Lookup`. -/
def GetAttr (svc : MetaService) (path : String) :
    Status × Option InodeAttr × MetaService :=
  let (s, inode?, svc1) := LookupPath svc path
  if ¬ s.OK then (s, none, svc1)
  else
    match inode? with
    | none => (s, none, svc1)
    | some inode =>
      match locatePartition svc1 inode with
      | none => (Status.ioError ("No partition available"), none, svc1)
      | some i =>
        match svc1.partitions.get? i with
        | none => (Status.ioError ("No partition available"), none, svc1)
        | some p =>
          let (s2, attr?, p') := pLookup p inode
          (s2, attr?, setPartition svc1 i p')

/-- The `to_set` merge of `MetadataServiceImpl::SetAttr`: bit 0 mode,
bit 1 uid, bit 2 gid, bit 3 size, bit 4 mtime; other bits never tested. -/
def mergeAttr (current attr : InodeAttr) (toSet : Nat) : InodeAttr :=
  let c := if toSet.land 1 ≠ 0 then { current with mode := attr.mode } else current
  let c := if toSet.land 2 ≠ 0 then { c with uid := attr.uid } else c
  let c := if toSet.land 4 ≠ 0 then { c with gid := attr.gid } else c
  let c := if toSet.land 8 ≠ 0 then { c with size := attr.size } else c
  if toSet.land 16 ≠ 0 then { c with mtime := attr.mtime } else c

/-- The `MetadataServiceImpl::SetAttr`: resolve the path, read the current
attributes, merge the masked fields, then re-creating the inode by calling
`MetaPartition::CreateInode(inode_id, mode, uid, gid)` again. -/
def SetAttr (svc : MetaService) (path : String) (attr : InodeAttr)
    (toSet now : Nat) : Status × MetaService :=
  let (s, inode?, svc1) := LookupPath svc path
  if ¬ s.OK then (s, svc1)
  else
    match inode? with
    | none => (s, svc1)
    | some inode =>
      match locatePartition svc1 inode with
      | none => (Status.ioError ("No partition available"), svc1)
      | some i =>
        match svc1.partitions.get? i with
        | none => (Status.ioError ("No partition available"), svc1)
        | some p =>
          let (s2, cur?, p') := pLookup p inode
          let svc2 := setPartition svc1 i p'
          if ¬ s2.OK then (s2, svc2)
          else
            match cur? with
            | none => (s2, svc2)
            | some cur =>
              let merged := mergeAttr cur attr toSet
              match svc2.partitions.get? i with
              | none => (Status.ioError ("No partition available"), svc2)
              | some p2 =>
                let (s3, p2') :=
                  pCreateInode p2 merged.inode_id merged.mode merged.uid
                    merged.gid now
                (s3, setPartition svc2 i p2')

/-- The `MetadataServiceImpl::UpdateSize`: read the attributes, set
`size = new_size` and `mtime = now`, then re-writing the inode by calling
`MetaPartition::CreateInode(inode_id, mode, uid, gid)` again. -/
def UpdateSize (svc : MetaService) (inode newSize now : Nat) :
    Status × MetaService :=
  match locatePartition svc inode with
  | none => (Status.ioError ("No partition available"), svc)
  | some i =>
    match svc.partitions.get? i with
    | none => (Status.ioError ("No partition available"), svc)
    | some p =>
      let (s, attr?, p') := pLookup p inode
      let svc1 := setPartition svc i p'
      if ¬ s.OK then (s, svc1)
      else
        match attr? with
        | none => (s, svc1)
        | some attr =>
          let attr1 := { attr with size := newSize, mtime := now }
          match svc1.partitions.get? i with
          | none => (Status.ioError ("No partition available"), svc1)
          | some p2 =>
            let (s2, p2') :=
              pCreateInode p2 attr1.inode_id attr1.mode attr1.uid attr1.gid now
            (s2, setPartition svc1 i p2')

/-! ## S3 metadata sub-store (`s3_metadata.h`) and bucket handler
(`s3_handler.h`)

Keys and values are byte strings; a C++ `std::string` is modelled as a
`List Char` (`Str`), each character one byte.  The `MetadataBackend`
(`RocksDBBackend`, `unnamed/part_010`) is an ordered KV map: an association
list kept in ascending key order, where `Put`/`BatchPut` insert in place,
`Get`/`Exists` are point lookups, `Delete` removes the key and
`Scan(prefix, limit)` seeks to `prefix` and iterates while keys start with
`prefix`, breaking once `limit` entries are collected. -/

abbrev Str := List Char

/-- C++ `std::string` comparison: lexicographic on bytes, a proper initial segment sorts first. -/
def strLt : Str → Str → Bool
  | [], [] => false
  | [], _ :: _ => true
  | _ :: _, [] => false
  | a :: as, b :: bs =>
    if a.toNat < b.toNat then true
    else if b.toNat < a.toNat then false
    else strLt as bs

/-- The `a <= b` on C++ strings. -/
def strLe (a b : Str) : Bool := ! strLt b a

/-- RocksDB point `Get`. -/
def kvGet : List (Str × Str) → Str → Option Str
  | [], _ => none
  | (k, v) :: rest, key => if k = key then some v else kvGet rest key

/-- RocksDB `Put` on the ordered map: replace in place or insert at the
sorted position. -/
def kvPut : List (Str × Str) → Str → Str → List (Str × Str)
  | [], k, v => [(k, v)]
  | (k', v') :: rest, k, v =>
    if k = k' then (k, v) :: rest
    else if strLt k k' then (k, v) :: (k', v') :: rest
    else (k', v') :: kvPut rest k v

/-- RocksDB `Delete`: the key disappears. -/
def kvDelete : List (Str × Str) → Str → List (Str × Str)
  | [], _ => []
  | kv :: rest, key =>
    if kv.1 = key then kvDelete rest key else kv :: kvDelete rest key

/-- The `RocksDBBackend::BatchPut`: one atomic write batch of puts. -/
def batchPut (store : List (Str × Str)) (kvs : List (Str × Str)) :
    List (Str × Str) :=
  kvs.foldl (fun st kv => kvPut st kv.1 kv.2) store

/-- The collection loop of `RocksDBBackend::Scan`: push each visited pair
and break once `(int)result.size() >= limit`. -/
def scanLoop (limit : Int) : List (Str × Str) → List (Str × Str) →
    List (Str × Str)
  | acc, [] => acc
  | acc, kv :: rest =>
    let acc' := acc ++ [kv]
    if (acc'.length : Int) ≥ limit then acc' else scanLoop limit acc' rest

/-- The `RocksDBBackend::Scan`: on the ascending-ordered store, `Seek` to the
searched initial segment + "iterate while `starts_with`" visits exactly
the keys with that initial segment, in order. -/
def scan (store : List (Str × Str)) (pfx : Str) (limit : Int) :
    List (Str × Str) :=
  scanLoop limit [] (store.filter (fun kv => pfx.isPrefixOf kv.1))

/-- The `ObjectMeta` (`s3_metadata.h`).  `user_metadata` is a `std::map`
iterated in ascending key order; it is modelled as the sorted list of its
pairs. -/
structure ObjectMeta where
  bucket        : Str
  key           : Str
  size          : Nat
  etag          : Str
  content_type  : Str
  last_modified : Nat
  storage_class : Str
  data_path     : Str
  user_metadata : List (Str × Str)
deriving DecidableEq, Repr

/-- The `encoding::PutU32`: raw `memcpy` of the 4 little-endian bytes. -/
def putU32S (v : Nat) : Str :=
  [Char.ofNat (byteAt v 0), Char.ofNat (byteAt v 1),
   Char.ofNat (byteAt v 2), Char.ofNat (byteAt v 3)]

/-- The `encoding::PutU64`: raw `memcpy` of the 8 little-endian bytes. -/
def putU64S (v : Nat) : Str :=
  [Char.ofNat (byteAt v 0), Char.ofNat (byteAt v 1),
   Char.ofNat (byteAt v 2), Char.ofNat (byteAt v 3),
   Char.ofNat (byteAt v 4), Char.ofNat (byteAt v 5),
   Char.ofNat (byteAt v 6), Char.ofNat (byteAt v 7)]

/-- The `encoding::PutString`: `u32` length then the raw bytes. -/
def putStringS (s : Str) : Str := putU32S s.length ++ s

/-- The `encoding::GetU32`: bounds check then `memcpy` back (consuming the
bytes; the C++ advances `pos` equivalently). -/
def getU32S : Str → Option (Nat × Str)
  | b0 :: b1 :: b2 :: b3 :: rest =>
    some (b0.toNat + 256 * b1.toNat + 65536 * b2.toNat +
          16777216 * b3.toNat, rest)
  | _ => none

/-- The `encoding::GetU64`. -/
def getU64S : Str → Option (Nat × Str)
  | b0 :: b1 :: b2 :: b3 :: b4 :: b5 :: b6 :: b7 :: rest =>
    some (b0.toNat + 256 * b1.toNat + 65536 * b2.toNat +
          16777216 * b3.toNat + 2 ^ 32 * b4.toNat + 2 ^ 40 * b5.toNat +
          2 ^ 48 * b6.toNat + 2 ^ 56 * b7.toNat, rest)
  | _ => none

/-- The `encoding::GetString`. -/
def getStringS (s : Str) : Option (Str × Str) :=
  match getU32S s with
  | none => none
  | some (len, rest) =>
    if len ≤ rest.length then some (rest.take len, rest.drop len) else none

/-- The `ObjectMeta::Encode`: version 1, the fields in declaration order, then
the `user_metadata` count and pairs. -/
def objectMetaEncode (m : ObjectMeta) : Str :=
  putU32S 1 ++ putStringS m.bucket ++ putStringS m.key ++ putU64S m.size ++
  putStringS m.etag ++ putStringS m.content_type ++
  putU64S m.last_modified ++ putStringS m.storage_class ++
  putStringS m.data_path ++ putU32S m.user_metadata.length ++
  (m.user_metadata.map (fun kv => putStringS kv.1 ++ putStringS kv.2)).flatten

/-- The `user_metadata` loop of `ObjectMeta::Decode`. -/
def decodeUserMeta : Nat → Str → Option (List (Str × Str) × Str)
  | 0, s => some ([], s)
  | n + 1, s =>
    match getStringS s with
    | none => none
    | some (k, s1) =>
      match getStringS s1 with
      | none => none
      | some (v, s2) =>
        match decodeUserMeta n s2 with
        | none => none
        | some (rest, s3) => some ((k, v) :: rest, s3)

/-- The `ObjectMeta::Decode`: rejects a missing header or `version > 1`;
trailing bytes are ignored. -/
def objectMetaDecode (s : Str) : Option ObjectMeta :=
  match getU32S s with
  | none => none
  | some (ver, s) =>
    if ver > 1 then none
    else
      match getStringS s with
      | none => none
      | some (bucket, s) =>
        match getStringS s with
        | none => none
        | some (key, s) =>
          match getU64S s with
          | none => none
          | some (size, s) =>
            match getStringS s with
            | none => none
            | some (etag, s) =>
              match getStringS s with
              | none => none
              | some (content_type, s) =>
                match getU64S s with
                | none => none
                | some (last_modified, s) =>
                  match getStringS s with
                  | none => none
                  | some (storage_class, s) =>
                    match getStringS s with
                    | none => none
                    | some (data_path, s) =>
                      match getU32S s with
                      | none => none
                      | some (count, s) =>
                        match decodeUserMeta count s with
                        | none => none
                        | some (um, _) =>
                          some ⟨bucket, key, size, etag, content_type,
                                last_modified, storage_class, data_path, um⟩

/-! ### `S3MetadataStore` key schema and operations -/

def bucketKey (name : Str) : Str := ['B', ':'] ++ name
def bucketListKey (name : Str) : Str := ['B', 'L', ':'] ++ name
def objectKey (bucket key : Str) : Str := ['O', ':'] ++ bucket ++ ['/'] ++ key
def objectListKey (bucket key : Str) : Str :=
  ['O', 'L', ':'] ++ bucket ++ ['/'] ++ key

/-- The scan key space of a bucket's object listing:
`"OL:" + bucket + "/"` (the `scan_prefix` local of `ListObjects`). -/
def olKeyspace (bucket : Str) : Str := ['O', 'L', ':'] ++ bucket ++ ['/']

/-- The `S3MetadataStore::PutObject`: one batch writing the object record and
its listing sentinel. -/
def putObject (store : List (Str × Str)) (meta : ObjectMeta) :
    List (Str × Str) :=
  batchPut store
    [(objectKey meta.bucket meta.key, objectMetaEncode meta),
     (objectListKey meta.bucket meta.key, [])]

/-- The `S3MetadataStore::GetObject`: point get then decode. -/
def getObject (store : List (Str × Str)) (bucket key : Str) :
    Option ObjectMeta :=
  match kvGet store (objectKey bucket key) with
  | none => none
  | some v => objectMetaDecode v

/-- The `S3MetadataStore::BucketExists`: backend `Exists` on the bucket key. -/
def bucketExists (store : List (Str × Str)) (name : Str) : Bool :=
  (kvGet store (bucketKey name)).isSome

/-- The `S3MetadataStore::DeleteBucket`: delete the bucket record and its
listing sentinel. -/
def deleteBucket (store : List (Str × Str)) (name : Str) : List (Str × Str) :=
  kvDelete (kvDelete store (bucketKey name)) (bucketListKey name)

/-- The filtering loop of `S3MetadataStore::ListObjects`.  `objKey` is the
scanned key with the leading `"OL:" + bucket + "/"` stripped; the marker
is exclusive (`obj_key <= marker` skips); `obj_key.find(pfx) != 0` skips
exactly the keys that do not start with `pfx`; a decodable object
record is appended and the loop breaks at `max_keys` entries. -/
def listObjectsLoop (store : List (Str × Str)) (bucket pfx marker : Str)
    (spLen : Nat) (maxKeys : Int) :
    List (Str × Str) → List ObjectMeta → List ObjectMeta
  | [], objects => objects
  | (key, _) :: rest, objects =>
    let objKey := key.drop spLen
    if marker ≠ [] ∧ strLe objKey marker then
      listObjectsLoop store bucket pfx marker spLen maxKeys rest objects
    else if pfx ≠ [] ∧ ¬ pfx.isPrefixOf objKey then
      listObjectsLoop store bucket pfx marker spLen maxKeys rest objects
    else
      match getObject store bucket objKey with
      | none => listObjectsLoop store bucket pfx marker spLen maxKeys rest objects
      | some meta =>
        let objects' := objects ++ [meta]
        if (objects'.length : Int) ≥ maxKeys then objects'
        else listObjectsLoop store bucket pfx marker spLen maxKeys rest objects'

/-- The `S3MetadataStore::ListObjects(bucket, pfx, marker, max_keys)`:
scans only the first `max_keys * 2` listing keys of the bucket, then
filters by marker and by `pfx`. -/
def listObjects (store : List (Str × Str)) (bucket pfx marker : Str)
    (maxKeys : Int) : List ObjectMeta :=
  let scanPfx := olKeyspace bucket
  let kvs := scan store scanPfx (maxKeys * 2)
  listObjectsLoop store bucket pfx marker scanPfx.length maxKeys kvs []

/-! ### `S3Handler::HandleDeleteBucket` (s3_handler.h)

The response is modelled by its status code and S3 error code; the XML body
and the data-directory removal are wire/filesystem plumbing outside the
model.  `S3Error::NoSuchBucket()` is `{404, "NoSuchBucket", …}` and
`S3Error::BucketNotEmpty()` is `{409, "BucketNotEmpty", …}`;
`SetError` copies the HTTP status and code. -/

structure S3Response where
  status_code : Nat
  errorCode   : Option String
deriving DecidableEq, Repr

def handleDeleteBucket (store : List (Str × Str)) (bucketName : Str) :
    S3Response × List (Str × Str) :=
  if ¬ bucketExists store bucketName then
    (⟨404, some ("NoSuchBucket")⟩, store)
  else
    let objects := listObjects store bucketName [] [] 1
    if objects ≠ [] then (⟨409, some ("BucketNotEmpty")⟩, store)
    else (⟨204, none⟩, deleteBucket store bucketName)

/-! ## Concrete instances used by the claims -/

/-- Scenario S1 of the spec: `insert(0, 1, 1024, 0, 100);
insert(50, 2, 1024, 0, 100)` on an empty tree (fuel 64 is ample for a
two-node tree). -/
def c4Tree : Option (Heap × Option Nat) :=
  (sliceInsert 64 emptyTree 0 1 1024 0 100).bind fun t1 =>
    sliceInsert 64 t1 50 2 1024 0 100

/-- An insert sequence on an empty tree that triggers the full-coverage
delete with two children: `insert(100,1,1024,0,50); insert(200,2,1024,0,50);
insert(0,3,1024,0,50); insert(100,4,1024,0,50)`.  The last insert fully
covers the root `[100,150)`, whose replacement aliases the `pos = 200` node
into a self-cycle. -/
def c1Tree : Option (Heap × Option Nat) :=
  (sliceInsert 64 emptyTree 100 1 1024 0 50).bind fun t1 =>
    (sliceInsert 64 t1 200 2 1024 0 50).bind fun t2 =>
      (sliceInsert 64 t2 0 3 1024 0 50).bind fun t3 =>
        sliceInsert 64 t3 100 4 1024 0 50

/-- Root directory attributes: inode 1, mode `040755`. -/
def rootAttr : InodeAttr := ⟨1, 16877, 0, 0, 0, 3, 3, 1⟩

/-- A regular file `/f`: inode 2, mode `0100644`, size 7. -/
def fAttr : InodeAttr := ⟨2, 33188, 0, 0, 7, 3, 3, 1⟩

/-- One partition owning inode range `[1, 1000)`, cold caches, with the
root directory and the regular file `/f` committed in RocksDB. -/
def p0 : MetaPartition :=
  ⟨1, 1000, [], [], [(1, rootAttr), (2, fAttr)],
   [((1, "f"), ⟨"f", 2, FileType.kRegular⟩)]⟩

/-- A service over `p0` with the next inode id being 3. -/
def svc0 : MetaService := ⟨[p0], 3⟩

/-- The attribute record passed to `SetAttr` in the C6 instance: requests
`mode = 0644` (420) under mask bit 0. -/
def attrReq : InodeAttr := ⟨0, 420, 9, 9, 99, 77, 0, 0⟩

/-- Objects `a`, `b`, `c` of bucket `b` for the list-marker instance. -/
def metaA : ObjectMeta := ⟨"b".toList, "a".toList, 1, [], [], 0, [], [], []⟩
def metaB : ObjectMeta := ⟨"b".toList, "b".toList, 2, [], [], 0, [], [], []⟩
def metaC : ObjectMeta := ⟨"b".toList, "c".toList, 3, [], [], 0, [], [], []⟩

/-- The store after `PutObject(a); PutObject(b); PutObject(c)` in bucket
`b`. -/
def c7Store : List (Str × Str) := putObject (putObject (putObject [] metaA) metaB) metaC

/-- The `c7Store` plus the bucket record for `b` (as `PutBucket` would write
it; `HandleDeleteBucket` only tests the key's existence). -/
def c8Store : List (Str × Str) := kvPut c7Store (bucketKey ("b".toList)) []

/-- A store holding only the (empty) bucket `b`. -/
def c8EmptyStore : List (Str × Str) := kvPut [] (bucketKey ("b".toList)) []

/-- The heap reached by the four inserts of `c1Tree`.  The root is node 1
(`pos = 200`), whose `right` pointer aliases **itself**: the full-coverage
branch of `Cut` executed `min_node->right = node->right` with
`min_node == node->right`. -/
def c1FinalHeap : Heap :=
  [⟨100, 1, 1024, 0, 50, some 2, some 1⟩,
   ⟨200, 2, 1024, 0, 50, some 2, some 1⟩,
   ⟨0, 3, 1024, 0, 50, none, some 3⟩,
   ⟨100, 4, 1024, 0, 50, none, none⟩]

/-- Store well-formedness used by C8: every object-listing sentinel
`OL:b/k` of bucket `b` has a matching object record `O:b/k` that decodes
(`PutObject` writes both keys in one atomic batch, so every store the
sub-store itself produced satisfies this). -/
def objectsDecodable (store : List (Str × Str)) (b : Str) : Prop :=
  ∀ e ∈ store, (olKeyspace b).isPrefixOf e.1 = true →
    (getObject store b (e.1.drop (olKeyspace b).length)).isSome = true

/-- Partition well-formedness used by C5: every cached or stored inode
record carries the id it is keyed by — true of every record the system
writes, since `CreateInode` keys the record by `attr.inode_id`. -/
def wellKeyed (p : MetaPartition) : Prop :=
  (∀ e ∈ p.inodeTree, (e.2).inode_id = e.1) ∧
  (∀ e ∈ p.kvInodes, (e.2).inode_id = e.1)

/-- All partitions of a service are well-keyed. -/
def svcWellKeyed (svc : MetaService) : Prop :=
  ∀ p ∈ svc.partitions, wellKeyed p

/-! ## Theorems -/

/-- Claim C4:  On an empty `SliceTree`, `Insert(0, 1, 1024, 0, 100);
Insert(50, 2, 1024, 0, 100); Build("x")` returns exactly two slices, in
order: `{slice_id: 1, offset: 0, size: 50, storage_key: "x/1"}` then
`{slice_id: 2, offset: 50, size: 100, storage_key: "x/2"}` (fuel 64 amply
covers the C++ recursion depth on this two-node tree). -/
theorem c4_middle_overwrite_scenario :
    c4Tree.bind (fun t => sliceBuild 64 t ("x")) =
      some [⟨1, 0, 50, "x/1"⟩, ⟨2, 50, 100, "x/2"⟩] := by
  decide

/-- Claim C2:  The layout codec does not round-trip: the layout with
`chunk_size = 128` (one `0x80` byte) decodes to `chunk_size =
2^64 - 128`, because `DecodeLayoutValue` reads bytes through
`static_cast<uint64_t>` applied to a signed `char`, sign-extending bytes
`≥ 0x80`.  (`inode_id` is not even serialized, so non-zero `inode_id` is
lost as well.) -/
theorem c2_layout_roundtrip_fails :
    DecodeLayoutValue (EncodeLayoutValue ⟨0, 128, []⟩) =
        ⟨0, 18446744073709551488, []⟩ ∧
      DecodeLayoutValue (EncodeLayoutValue ⟨0, 128, []⟩) ≠
        (⟨0, 128, []⟩ : FileLayout) := by
  decide

/-- Claim C3:  `Create` is not atomic over the `{inode, dentry}` pair: on
`svc0` (root directory plus regular file `/f`), `Create("/f/x", 0100644,
0, 0)` fails at the dentry step with `kNotDirectory` (the parent `/f` is
not a directory), yet the freshly allocated inode 3 remains committed in
the partition's RocksDB records and no dentry `(2, "x")` exists. -/
theorem c3_create_leaves_orphan_inode :
    (Create svc0 ("/f/x") 33188 0 0 5).1.code = ErrorCode.kNotDirectory ∧
      ((Create svc0 ("/f/x") 33188 0 0 5).2.partitions.get? 0).bind
          (fun p => assocFind p.kvInodes 3) =
        some ⟨3, 33188, 0, 0, 0, 5, 5, 1⟩ ∧
      ((Create svc0 ("/f/x") 33188 0 0 5).2.partitions.get? 0).bind
          (fun p => assocFind p.kvDentries (2, "x")) = none := by
  decide

/-- Claim C6:  `SetAttr` does not persist the merged record: on `svc0`,
`SetAttr("/f", {mode: 0644, …}, to_set = 1)` resolves `/f` (inode 2),
merges the mode, but then persists through
`MetaPartition::CreateInode`, which finds inode 2 already present and
fails with `kExist`; the stored record keeps the old mode `0100644`. -/
theorem c6_setattr_never_persists :
    (SetAttr svc0 ("/f") attrReq 1 5).1.code = ErrorCode.kExist ∧
      ((SetAttr svc0 ("/f") attrReq 1 5).2.partitions.get? 0).bind
          (fun p => assocFind p.kvInodes 2) = some fAttr ∧
      fAttr.mode ≠ attrReq.mode := by
  decide

/-- Claim C7:  `ListObjects` misses matching keys beyond its
`max_keys * 2` scan window: in bucket `b` with objects `a`, `b`, `c`,
`ListObjects("b", "", marker := "b", max_keys := 1)` returns nothing,
although key `c` satisfies `c > "b"`, starts with the empty prefix, and
`max_keys = 1` allows one entry — the scan stopped after the two listing
keys `a`, `b`, both filtered out by the marker. -/
theorem c7_marker_beyond_scan_window :
    listObjects c7Store ("b".toList) [] ("b".toList) 1 = [] ∧
      getObject c7Store ("b".toList) ("c".toList) = some metaC ∧
      strLt ("b".toList) ("c".toList) = true := by
  decide

/-- Claim C10:  For every inode whose layout key is absent from the store,
`RocksDBStore::LookupLayout` returns OK and fills the output with the
synthetic empty layout `{inode_id := inode, chunk_size := 4 MiB,
slices := []}`. -/
theorem c10_lookup_layout_default (db : List (List Nat × List Nat))
    (inode : Nat) (habsent : kvGetB db (EncodeLayoutKey inode) = none) :
    LookupLayout db inode = (Status.ok, ⟨inode, 4194304, []⟩) := by
  unfold LookupLayout
  rw [habsent]

/-- Witness for C10: the empty database has no layout record for inode 7,
and `LookupLayout` yields the default layout there. -/
theorem c10_lookup_layout_default_witness :
    LookupLayout [] 7 = (Status.ok, ⟨7, 4194304, []⟩) :=
  c10_lookup_layout_default [] 7 (by decide)

/-- If a node's `right` pointer aliases the node itself, the in-order
traversal recurses on itself forever: no amount of fuel completes it
(the C++ `InorderCollect` never returns). -/
theorem inorderCollect_self_cycle (h : Heap) (p : Nat) (node : SliceNode)
    (hget : h.get? p = some node) (hright : node.right = some p) :
    ∀ fuel, inorderCollect fuel h (some p) = none := by
  intro fuel
  induction fuel with
  | zero => rfl
  | succ n ih =>
    have hstep : inorderCollect (n + 1) h (some p) =
        (inorderCollect n h node.left).bind fun l =>
          (inorderCollect n h node.right).bind fun r =>
            some (l ++ [node] ++ r) := by
      have hget' : h[p]? = some node := by
        rw [← List.get?_eq_getElem?]; exact hget
      simp [inorderCollect, hget']
    rw [hstep, hright]
    simp only [ih]
    cases inorderCollect n h node.left <;> rfl

/-- Claim C1:  The slice-tree invariant fails: the insert sequence
`Insert(100,1,1024,0,50); Insert(200,2,1024,0,50); Insert(0,3,1024,0,50);
Insert(100,4,1024,0,50)` drives `Cut`'s full-coverage branch into the
two-children delete, whose `min_node->right = node->right` rewiring makes
the `pos = 200` node its own right child; `Build` then never returns for
any fuel (in C++, `InorderCollect` recurses forever), so it does not
return an ascending non-overlapping slice list after this sequence. -/
theorem c1_build_never_returns :
    c1Tree = some (c1FinalHeap, some 1) ∧
      ∀ fuel, sliceBuild fuel (c1FinalHeap, some 1) "x" = none := by
  refine ⟨by decide, fun fuel => ?_⟩
  have hc := inorderCollect_self_cycle c1FinalHeap 1
    ⟨200, 2, 1024, 0, 50, some 2, some 1⟩ rfl rfl fuel
  simp [sliceBuild, hc]

/-- A successful `assocFind` certifies membership. -/
theorem assocFind_mem {α β : Type} [DecidableEq α] {l : List (α × β)}
    {k : α} {v : β} (h : assocFind l k = some v) : (k, v) ∈ l := by
  induction l with
  | nil => simp [assocFind] at h
  | cons e rest ih =>
    obtain ⟨k', v'⟩ := e
    rw [assocFind] at h
    by_cases hk : k' = k
    · rw [if_pos hk] at h
      cases h
      subst hk
      exact List.mem_cons_self _ _
    · rw [if_neg hk] at h
      exact List.mem_cons_of_mem _ (ih h)

/-- The `Status.OK` in terms of the code. -/
theorem status_OK_iff (s : Status) : s.OK = true ↔ s.code = ErrorCode.kOK := by
  simp [Status.OK]

/-- When `MetaPartition::Lookup` succeeds, the attribute it returns is in
the resulting in-memory cache (either it was cached already or the store
hit just populated the cache), and it was one of the partition's records. -/
theorem pLookup_ok_spec (p : MetaPartition) (inode : Nat)
    (hok : ((pLookup p inode).1).code = ErrorCode.kOK) :
    ∃ attr, (pLookup p inode).2.1 = some attr ∧
      assocFind ((pLookup p inode).2.2).inodeTree inode = some attr ∧
      ((inode, attr) ∈ p.inodeTree ∨ (inode, attr) ∈ p.kvInodes) := by
  unfold pLookup at hok ⊢
  cases h1 : assocFind p.inodeTree inode with
  | some attr =>
    refine ⟨attr, by simp [h1], by simp [h1], Or.inl (assocFind_mem h1)⟩
  | none =>
    cases h2 : assocFind p.kvInodes inode with
    | none => simp [h1, h2, Status.notFound] at hok
    | some attr =>
      refine ⟨attr, by simp [h1, h2], ?_, Or.inr (assocFind_mem h2)⟩
      simp only [h1, h2]
      simp [assocFind]

/-- Claim C5:  On any service whose records are keyed consistently (every
inode record carries the id it is keyed by, as every record written by
`CreateInode` does), `UpdateSize` **never** returns OK: after the
successful `Lookup`, it rewrites the inode through
`MetaPartition::CreateInode`, which finds the inode already present (the
lookup itself populated the cache) and fails with `Exist` (or
`InvalidArgument` when out of range); every other path fails earlier.
The claim hypothesis that `UpdateSize(i, s)` succeeds is
therefore unsatisfiable, and no size is ever persisted. -/
theorem c5_updatesize_never_succeeds (svc : MetaService)
    (inode newSize now : Nat) (hwf : svcWellKeyed svc) :
    ((UpdateSize svc inode newSize now).1).code ≠ ErrorCode.kOK := by
  unfold UpdateSize
  cases hloc : locatePartition svc inode with
  | none => simp [Status.ioError]
  | some i =>
    cases hp : svc.partitions[i]? with
    | none => simp [hp, Status.ioError]
    | some p =>
      rcases hpl : pLookup p inode with ⟨s, a?, p'⟩
      by_cases hok : s.OK = true
      · -- the lookup succeeded: the re-create must fail
        have hcode : s.code = ErrorCode.kOK := (status_OK_iff s).mp hok
        obtain ⟨attr, ha, hcache, hmem⟩ :=
          pLookup_ok_spec p inode (by rw [hpl]; exact hcode)
        rw [hpl] at ha hcache
        simp only at ha hcache
        have hid : attr.inode_id = inode := by
          have hpmem : p ∈ svc.partitions := List.getElem?_mem hp
          have hwk := hwf p hpmem
          cases hmem with
          | inl hm => exact hwk.1 (inode, attr) hm
          | inr hm => exact hwk.2 (inode, attr) hm
        have hilt : i < svc.partitions.length := (List.getElem?_eq_some.mp hp).1
        have hget2 : (svc.partitions.set i p')[i]? = some p' :=
          List.getElem?_set_eq_of_lt p' hilt
        have hcreate :
            ∀ m u g, ((pCreateInode p' inode m u g now).1).code ≠
              ErrorCode.kOK := by
          intro m u g
          unfold pCreateInode
          by_cases hrange : inode < p'.startInode ∨ inode ≥ p'.endInode
          · simp [hrange, Status.invalidArgument]
          · have hpl2 : pLookup p' inode = (Status.ok, some attr, p') := by
              unfold pLookup
              rw [hcache]
            simp [hrange, hpl2, Status.OK, Status.ok, Status.exist]
        rcases hpc : pCreateInode p' inode attr.mode attr.uid attr.gid now
          with ⟨s2, p2'⟩
        have hs2 : s2.code ≠ ErrorCode.kOK := by
          have h := hcreate attr.mode attr.uid attr.gid
          rw [hpc] at h
          exact h
        simp [hp, hpl, hok, ha, setPartition, hget2, hid, hpc, hs2]
      · -- the lookup failed: its status is propagated
        have hfalse : s.OK = false := by
          revert hok; cases s.OK <;> simp
        have hne : s.code ≠ ErrorCode.kOK := fun hc =>
          hok ((status_OK_iff s).mpr hc)
        simp [hp, hpl, hfalse, hne]

/-- Witness for C5: on the concrete service `svc0` (whose records are
keyed consistently), `UpdateSize(2, 100)` does not return OK. -/
theorem c5_updatesize_witness :
    ((UpdateSize svc0 2 100 5).1).code ≠ ErrorCode.kOK :=
  c5_updatesize_never_succeeds svc0 2 100 5
    (by unfold svcWellKeyed wellKeyed; decide)

/-- A successful `kvGet` certifies membership. -/
theorem kvGet_mem {s : List (Str × Str)} {k v : Str}
    (h : kvGet s k = some v) : (k, v) ∈ s := by
  induction s with
  | nil => simp [kvGet] at h
  | cons e rest ih =>
    obtain ⟨k', v'⟩ := e
    rw [kvGet] at h
    by_cases hk : k' = k
    · rw [if_pos hk] at h
      cases h
      subst hk
      exact List.mem_cons_self _ _
    · rw [if_neg hk] at h
      exact List.mem_cons_of_mem _ (ih h)

/-- A present key is found by `kvGet`. -/
theorem mem_kvGet_isSome {s : List (Str × Str)} {e : Str × Str}
    (h : e ∈ s) : (kvGet s e.1).isSome = true := by
  induction s with
  | nil => cases h
  | cons a rest ih =>
    obtain ⟨k', v'⟩ := a
    rw [kvGet]
    rcases List.mem_cons.mp h with he | he
    · subst he
      simp
    · by_cases hk : k' = e.1
      · simp [hk]
      · simp [hk, ih he]

/-- Reading through a `kvDelete`: the deleted key is gone, other keys are
untouched. -/
theorem kvGet_kvDelete (s : List (Str × Str)) (k k' : Str) :
    kvGet (kvDelete s k) k' = if k' = k then none else kvGet s k' := by
  induction s with
  | nil =>
    rw [kvDelete]
    by_cases h : k' = k
    · simp [kvGet, h]
    · simp [kvGet, h]
  | cons a rest ih =>
    obtain ⟨ka, va⟩ := a
    rw [kvDelete]
    by_cases h1 : ka = k
    · rw [if_pos h1, ih]
      by_cases h2 : k' = k
      · simp [h2]
      · have hka : ¬ (ka = k') := by
          rw [h1]; exact fun hh => h2 hh.symm
        simp [h2, kvGet, hka]
    · rw [if_neg h1, kvGet]
      by_cases h3 : ka = k'
      · have h2 : ¬ (k' = k) := fun hh => h1 (h3.trans hh)
        simp [h3, h2, kvGet]
      · rw [if_neg h3, ih]
        by_cases h2 : k' = k
        · simp [h2]
        · simp [h2, kvGet, h3]

/-- The `scanLoop` only ever appends to its accumulator. -/
theorem scanLoop_acc (lim : Int) (l : List (Str × Str)) :
    ∀ acc, ∃ t, scanLoop lim acc l = acc ++ t := by
  induction l with
  | nil => exact fun acc => ⟨[], by rw [scanLoop]; simp⟩
  | cons kv rest ih =>
    intro acc
    rw [scanLoop]
    by_cases hl : (((acc ++ [kv]).length : Int) ≥ lim)
    · refine ⟨[kv], ?_⟩
      show (if (((acc ++ [kv]).length : Int) ≥ lim) then acc ++ [kv]
        else scanLoop lim (acc ++ [kv]) rest) = acc ++ [kv]
      rw [if_pos hl]
    · obtain ⟨t, ht⟩ := ih (acc ++ [kv])
      refine ⟨kv :: t, ?_⟩
      show (if (((acc ++ [kv]).length : Int) ≥ lim) then acc ++ [kv]
        else scanLoop lim (acc ++ [kv]) rest) = acc ++ kv :: t
      rw [if_neg hl, ht]
      simp

/-- Claim C8:  `HandleDeleteBucket` on an existing bucket `b` of a
well-formed store (every object-listing sentinel has a decodable object
record, as `PutObject` guarantees): if at least one object-listing key of
`b` is present, it fails with `409 BucketNotEmpty` and leaves the store —
in particular the bucket record — untouched; if no object of `b` remains,
it returns `204` and the bucket record is deleted.  So deletion succeeds
only when the bucket is empty. -/
theorem c8_delete_bucket_semantics (store : List (Str × Str)) (b : Str)
    (hb : (kvGet store (bucketKey b)).isSome = true)
    (hdec : objectsDecodable store b) :
    ((∃ e ∈ store, (olKeyspace b).isPrefixOf e.1 = true) →
        (handleDeleteBucket store b).1 = ⟨409, some ("BucketNotEmpty")⟩ ∧
          (handleDeleteBucket store b).2 = store) ∧
      ((∀ e ∈ store, ¬ (olKeyspace b).isPrefixOf e.1 = true) →
        (handleDeleteBucket store b).1 = ⟨204, none⟩ ∧
          kvGet (handleDeleteBucket store b).2 (bucketKey b) = none) := by
  have hexists : bucketExists store b = true := by
    simpa [bucketExists] using hb
  constructor
  · rintro ⟨e, he, hpre⟩
    have hmemf : e ∈ store.filter (fun kv => (olKeyspace b).isPrefixOf kv.1) :=
      List.mem_filter.mpr ⟨he, hpre⟩
    have hne : listObjects store b [] [] 1 ≠ [] := by
      cases hflt : store.filter (fun kv => (olKeyspace b).isPrefixOf kv.1) with
      | nil => rw [hflt] at hmemf; cases hmemf
      | cons e0 rest =>
        obtain ⟨k0, v0⟩ := e0
        have he0 : (k0, v0) ∈ store ∧
            (olKeyspace b).isPrefixOf (k0, v0).1 = true :=
          List.mem_filter.mp (hflt ▸ List.mem_cons_self (k0, v0) rest)
        have hgetob :
            (getObject store b ((k0, v0).1.drop (olKeyspace b).length)).isSome =
              true := hdec (k0, v0) he0.1 he0.2
        obtain ⟨m, hm⟩ := Option.isSome_iff_exists.mp hgetob
        have hkvs : ∃ t, scan store (olKeyspace b) (1 * 2) = (k0, v0) :: t := by
          unfold scan
          rw [hflt, scanLoop]
          have hc : ¬ ((([] ++ [(k0, v0)]).length : Int) ≥ (1 * 2 : Int)) := by
            norm_num
          rw [if_neg hc]
          obtain ⟨t, ht⟩ := scanLoop_acc (1 * 2) rest ([] ++ [(k0, v0)])
          exact ⟨t, by simpa using ht⟩
        obtain ⟨t, ht⟩ := hkvs
        simp only [listObjects]
        rw [ht, listObjectsLoop]
        simp [hm]
    simp [handleDeleteBucket, hexists, hne]
  · intro hno
    have hfilter :
        store.filter (fun kv => (olKeyspace b).isPrefixOf kv.1) = [] :=
      List.filter_eq_nil_iff.mpr (fun e he => by simpa using hno e he)
    have hobj : listObjects store b [] [] 1 = [] := by
      simp only [listObjects, scan]
      rw [hfilter, scanLoop, listObjectsLoop]
    have hBne : ¬ (bucketKey b = bucketListKey b) := by
      simp [bucketKey, bucketListKey]
    constructor
    · simp [handleDeleteBucket, hexists, hobj]
    · simp [handleDeleteBucket, hexists, hobj, deleteBucket,
        kvGet_kvDelete, hBne]

/-- Witness for C8: on the concrete store holding bucket `b` with objects
`a`, `b`, `c`, deletion fails with `409 BucketNotEmpty` and keeps the
store; on the store holding only the empty bucket `b`, deletion returns
`204` and removes the bucket record. -/
theorem c8_delete_bucket_witness :
    ((handleDeleteBucket c8Store ("b".toList)).1 =
        ⟨409, some ("BucketNotEmpty")⟩ ∧
      (handleDeleteBucket c8Store ("b".toList)).2 = c8Store) ∧
    ((handleDeleteBucket c8EmptyStore ("b".toList)).1 = ⟨204, none⟩ ∧
      kvGet (handleDeleteBucket c8EmptyStore ("b".toList)).2
        (bucketKey ("b".toList)) = none) :=
  ⟨(c8_delete_bucket_semantics c8Store ("b".toList) (by decide)
      (by unfold objectsDecodable; decide)).1
    ⟨(objectListKey ("b".toList) ("a".toList), []), by decide, by decide⟩,
   (c8_delete_bucket_semantics c8EmptyStore ("b".toList) (by decide)
      (by unfold objectsDecodable; decide)).2
    (by unfold c8EmptyStore; decide)⟩

end NimbusStore
